import Mathlib

/-!
Verification of the paginated-retrieval-and-concurrent-fan-out pipeline of the
qualys connector.

The Go sources are shallowly embedded as executable Lean definitions:
  - the Qualys response types (`QHost`, `QDetection`, `QHostListDetectionOutput`)
    carry exactly the fields read by the embedded functions;
  - the remote service is modelled as the list of responses it will serve to the
    successive page fetches of one pagination run (`PageResp`);
  - goroutine bodies are modelled by the value they eventually deliver on their
    channel, together with the value of the function's named returns at the
    moment the function itself returns (the Go functions return before their
    goroutine runs, without synchronisation);
  - Go maps with zero-value reads are modelled as association lists with a
    defaulting lookup.
-/

/-! ## Go standard-library helpers used by the sources -/

/-- Numeric value of a decimal digit run, or `none` when a non-digit occurs
(accumulator form, mirroring a left-to-right scan). -/
def decValueAux : List Char → Nat → Option Nat
  | [], acc => some acc
  | c :: cs, acc =>
    if c.isDigit then decValueAux cs (acc * 10 + (c.toNat - 48)) else none

/-- Model of Go `strconv.Atoi`: optional single leading sign, then one or more
decimal digits, value within the signed 64-bit range (Go `int`). -/
def goAtoi (s : String) : Option Int :=
  match s.data with
  | [] => none
  | '+' :: cs =>
    match cs, decValueAux cs 0 with
    | [], _ => none
    | _ :: _, some n => if n ≤ 9223372036854775807 then some (Int.ofNat n) else none
    | _ :: _, none => none
  | '-' :: cs =>
    match cs, decValueAux cs 0 with
    | [], _ => none
    | _ :: _, some n => if n ≤ 9223372036854775808 then some (-(Int.ofNat n)) else none
    | _ :: _, none => none
  | c :: cs =>
    match decValueAux (c :: cs) 0 with
    | some n => if n ≤ 9223372036854775807 then some (Int.ofNat n) else none
    | none => none

/-- Model of Go `strings.Index` restricted to its found/not-found result: the
first position of `sub` as a contiguous sublist of `s`, `none` when absent
(Go returns `-1` there). -/
def goIndexAux (sub : List Char) : List Char → Option Nat
  | [] => if sub.isEmpty then some 0 else none
  | c :: t =>
    if sub.isPrefixOf (c :: t) then some 0
    else (goIndexAux sub t).map (· + 1)

/-- Model of a Go `map[string]string` read, which yields the zero value `""`
for an absent key. -/
def goMapGet (m : List (String × String)) (k : String) : String :=
  match m.find? (fun p => p.1 == k) with
  | some p => p.2
  | none => ""

/-- Key-presence in a modelled Go map (used to state claims that speak about a
key being present, as opposed to its value being non-empty). -/
def goMapHasKey (m : List (String × String)) (k : String) : Bool :=
  (m.find? (fun p => p.1 == k)).isSome

/-- Model of Go `strings.ToLower` on the ASCII inputs the sources compare. -/
def goToLower (s : String) : String :=
  String.mk (s.data.map Char.toLower)

/-! ## Qualys response data model (fields read by the embedded sources) -/

/-- One vulnerability detection on a host (Qualys `QDetection`). -/
structure QDetection where
  qid : Nat
  status : String
  proof : String
deriving DecidableEq

/-- One scanned host together with its embedded detections (Qualys `QHost`). -/
structure QHost where
  hostID : Nat
  ipAddress : String
  detections : List QDetection
deriving DecidableEq

/-- Continuation descriptor returned by the Host List Detection API
(Qualys `Warning`): its presence is the sole signal that more pages exist. -/
structure QWarning where
  url : String
deriving DecidableEq

/-- One page of the Host List Detection API (Qualys `QHostListDetectionOutput`). -/
structure QHostListDetectionOutput where
  hosts : List QHost
  warning : Option QWarning
deriving DecidableEq

/-- One response of the remote service to a page fetch: either a transport /
schema error or a parsed page. -/
inductive PageResp where
  | fail (e : String)
  | page (output : QHostListDetectionOutput)
deriving DecidableEq

/-! ## domain status constants

Modelled from the spec: the canonical status tokens of the external
`nortonlifelock/domain` collaborator package (spec section 3: statuses are
normalized to a canonical Vulnerable / Fixed / Informational / DeadHost set).
Only their being pairwise distinct from the raw vendor tokens matters to the
theorems below. -/

namespace domain

def Vulnerable : String := "Vulnerable"

def Fixed : String := "Fixed"

def Informational : String := "Informational"

def DeadHost : String := "Dead Host"

end domain

/-! ## Pagination engine (`getHostDetectionPostData`, src/unnamed/part_000) -/

/-- Observable behaviour of one pagination run of `getHostDetectionPostData`:
the hosts eventually delivered on the `out` channel (in the canonical
parent-page-before-child-page linearisation; arrival order across pages is not
guaranteed by the source and no theorem below relies on it), the number of
POST calls the run performs, and the final value of the goroutine-local `err`
variable. -/
structure RunResult where
  hosts : List QHost
  fetches : Nat
  errInGoroutine : Option String
deriving DecidableEq

/-- The recursive pagination engine of `getHostDetectionPostData`
(src/unnamed/part_000 lines 116-181), driven by the list of responses the
remote service serves to this run's successive page fetches.  Each level
performs exactly one POST; on error it delivers nothing further; on success it
forwards the page's hosts, and when (and only when) the continuation
descriptor `warning` is present it initiates exactly one recursive run on the
remaining responses, whose hosts are pumped into the same channel before the
level's join-and-close.  An exhausted response list models the boundary of the
service model (no further response available) and performs no fetch. -/
def getHostDetectionPostData : List PageResp → RunResult
  | [] => ⟨[], 0, none⟩
  | PageResp.fail e :: _ => ⟨[], 1, some e⟩
  | PageResp.page output :: rest =>
    match output.warning with
    | none => ⟨output.hosts, 1, none⟩
    | some _ =>
      let child := getHostDetectionPostData rest
      ⟨output.hosts ++ child.hosts, 1 + child.fetches, none⟩

/-- Request fields built by `GetHostDetections` (src/unnamed/part_000
lines 57-77). -/
structure HostFields where
  action : String
  truncation_limit : String
  show_reopened_info : String
  status : String
  arf_kernel_filter : String
  ag_ids : String
deriving DecidableEq

/-- Request fields built by `GetTagDetections` (src/unnamed/part_000
lines 11-47). -/
structure TagFields where
  action : String
  truncation_limit : String
  show_reopened_info : String
  arf_kernel_filter : String
  status : String
  use_tags : String
  tag_set_by : String
  tag_include_selector : String
  tag_set_include : String
  host_metadata : String
  host_metadata_fields : String
deriving DecidableEq

/-- What a caller of `GetHostDetections` observes: the request fields built
(`none` when the call was rejected), the hosts the returned channel eventually
delivers (`none` when no channel-producing run was started), and the value of
the `err` return at the moment the function returns.  In the source the POST
and every assignment to the named returns `err` and `totalHosts` of
`getHostDetectionPostData` happen inside the goroutine it launches, after the
function has already returned and without synchronisation, so the caller
observes the zero value `nil` there; the run's internal error lives in
`RunResult.errInGoroutine`. -/
structure HostDetectionsReturn where
  fields : Option HostFields
  out : Option (List QHost)
  errAtReturn : Option String
deriving DecidableEq

/-- `GetHostDetections` (src/unnamed/part_000 lines 57-77): rejects a nil or
empty group list before any network call, otherwise builds the request fields
and starts one pagination run. -/
def GetHostDetections (groups : List String) (kernelFilterFlag : Int)
    (chain : List PageResp) : HostDetectionsReturn :=
  match groups with
  | [] => ⟨none, none, some ("empty group list passed to GetHostDetections")⟩
  | g :: gs =>
    ⟨some
      { action := "list"
        truncation_limit := "2500"
        show_reopened_info := "1"
        status := "New,Active,Re-Opened,Fixed"
        arf_kernel_filter := toString kernelFilterFlag
        ag_ids := String.intercalate (",") (g :: gs) },
      some (getHostDetectionPostData chain).hosts, none⟩

/-- What a caller of `GetTagDetections` observes; see `HostDetectionsReturn`
for the reading of `out` and `errAtReturn`. -/
structure TagDetectionsReturn where
  fields : Option TagFields
  out : Option (List QHost)
  errAtReturn : Option String
deriving DecidableEq

/-- `GetTagDetections` (src/unnamed/part_000 lines 11-47): rejects a nil or
empty tag list before any network call (with the copy-pasted
"empty group list" message of the source), otherwise builds the request
fields — `tag_set_by` is decided by whether `tags[0]` parses with
`strconv.Atoi` — and starts one pagination run. -/
def GetTagDetections (tags : List String) (kernelFilterFlag : Int)
    (chain : List PageResp) : TagDetectionsReturn :=
  match tags with
  | [] => ⟨none, none, some ("empty group list passed to GetHostDetections")⟩
  | t0 :: ts =>
    ⟨some
      { action := "list"
        truncation_limit := "0"
        show_reopened_info := "1"
        arf_kernel_filter := toString kernelFilterFlag
        status := "New,Active,Re-Opened,Fixed"
        use_tags := "1"
        tag_set_by := if (goAtoi t0).isSome then "id" else "name"
        tag_include_selector := "all"
        tag_set_include := String.intercalate (",") (t0 :: ts)
        host_metadata := "ec2"
        host_metadata_fields := "instanceId" },
      some (getHostDetectionPostData chain).hosts, none⟩

/-- What a caller of `GetHostSpecificDetections` observes: the parsed output
(`none` when the named return `output` was never assigned), the error return,
and the number of POST calls performed. -/
structure HostSpecificReturn where
  output : Option QHostListDetectionOutput
  err : Option String
  postCalls : Nat
deriving DecidableEq

/-- `GetHostSpecificDetections` (src/unnamed/part_000 lines 87-112): on a nil
or empty IP list it skips the body entirely — no network call, but also no
error is assigned, so the caller receives `nil, nil`.  Otherwise it performs
one POST (`resp` is the response the service serves it). -/
def GetHostSpecificDetections (ip : List String) (groups : List String)
    (kernelFilterFlag : Int) (resp : Except String QHostListDetectionOutput) :
    HostSpecificReturn :=
  match ip with
  | [] => ⟨none, none, 0⟩
  | _ :: _ =>
    match resp with
    | Except.ok o => ⟨some o, none, 1⟩
    | Except.error e => ⟨some ⟨[], none⟩, some e, 1⟩

/-! ## Web-app finding status mapping (src/unnamed/part_001, `Status`) -/

/-- The two fields of `qualys.WebAppFinding` read by `Status`: the raw vendor
status (Go field `StatusVal`) and the detection kind (Go field `Type`). -/
structure WebAppFinding where
  statusVal : String
  typeVal : String
deriving DecidableEq

/-- `(*webAppFindingWrapper).Status` (src/unnamed/part_001 lines 28-57):
`INFORMATION_GATHERED` records are Informational regardless of raw status;
otherwise the lower-cased raw status is looked up in the fixed vocabulary, and
an unrecognised status is returned unchanged. -/
def Status (f : WebAppFinding) : String :=
  if f.typeVal = "INFORMATION_GATHERED" then domain.Informational
  else
    match goToLower f.statusVal with
    | "new" => domain.Vulnerable
    | "active" => domain.Vulnerable
    | "reopened" => domain.Vulnerable
    | "fixed" => domain.Fixed
    | "protected" => domain.Vulnerable
    | _ => f.statusVal

/-! ## Scan-results detection push (src/connector/interface.go,
`pushDetectionsOnChannel`) -/

/-- One detection event sent on the `Detections`/`ScanResults` output channel
(the `hostDetectionCombo` of the source, flattened to the fields the claims
speak about). -/
structure hostDetectionCombo where
  hostID : Nat
  ip : String
  qid : Nat
  status : String
  proof : String
deriving DecidableEq

/-- The identity key of a detection event: (device identifier, vulnerability
identifier). -/
def comboKey (c : hostDetectionCombo) : Nat × Nat :=
  (c.hostID, c.qid)

/-- Builds the event sent for host `h` and (possibly rewritten) detection `d`. -/
def mkCombo (h : QHost) (d : QDetection) : hostDetectionCombo :=
  ⟨h.hostID, h.ipAddress, d.qid, d.status, d.proof⟩

/-- `pushDetectionsOnChannel` (src/connector/interface.go lines 288-317): for
every host and every detection on it, the detection's status is overridden to
`DeadHost` (with the mapped proof) when the dead-host map's read for the
host's IP yields a non-empty string, else normalised to canonical `Fixed` when
the raw status is the vendor token `"Fixed"`; every resulting event is sent —
there is no seen-set on this path.  The `ctx.Done` early-return is not
modelled (the claims below are about an uncancelled run; cancellation is
modelled separately for `Detections`). -/
def pushDetectionsOnChannel (output : QHostListDetectionOutput)
    (deadHostIPToProof : List (String × String)) : List hostDetectionCombo :=
  output.hosts.flatMap fun h =>
    h.detections.map fun d =>
      let deadHostProof := goMapGet deadHostIPToProof h.ipAddress
      let d2 :=
        if deadHostProof.length > 0 then
          { d with status := domain.DeadHost, proof := deadHostProof }
        else if d.status = "Fixed" then { d with status := domain.Fixed }
        else d
      mkCombo h d2

/-- Claim-side restatement of the per-detection status rule, following the
amended claim's words: a host IP mapped to a NON-EMPTY proof text forces
`DeadHost` with that proof; otherwise the vendor token `"Fixed"` is normalised
to canonical `Fixed`; otherwise the detection is unchanged.  Stated on the
Option-valued association lookup so key-presence and value-emptiness are
separated. -/
def specStatusRule (m : List (String × String)) (ip : String)
    (d : QDetection) : QDetection :=
  match m.find? (fun p => p.1 == ip) with
  | some p =>
    if p.2 ≠ "" then { d with status := domain.DeadHost, proof := p.2 }
    else if d.status = "Fixed" then { d with status := domain.Fixed }
    else d
  | none =>
    if d.status = "Fixed" then { d with status := domain.Fixed }
    else d

/-! ## Selector partition (src/connector/interface.go, `Detections`
lines 74-83) -/

/-- The literal marker the source names `tagPrefix`. -/
def tagMarker : String := "tag-"

/-- The selector partition of `Detections` (src/connector/interface.go
lines 74-83): an identifier in which `strings.Index(id, "tag-")` finds an
occurrence (anywhere, not only as a prefix) is tag-style, contributing the
portion after that first occurrence; every other identifier is group-style;
both lists preserve input order.  Returns (groupIDs, tags). -/
def partitionIDs : List String → List String × List String
  | [] => ([], [])
  | id :: rest =>
    let r := partitionIDs rest
    match goIndexAux tagMarker.data id.data with
    | some i => (r.1, String.mk (id.data.drop (i + tagMarker.length)) :: r.2)
    | none => (id :: r.1, r.2)

/-- Claim-side suffix extraction for the amended partition claim: the portion
of `id` after the first occurrence of `"tag-"`, when one exists. -/
def tagStyleSuffix (id : String) : Option String :=
  (goIndexAux tagMarker.data id.data).map
    (fun i => String.mk (id.data.drop (i + tagMarker.length)))

/-! ## Fan-out deduplicator of `Detections`

`pushCombosForHost` is called from `Detections` (src/connector/interface.go
lines 106 and 142) with a per-sub-pipeline seen-set (`processedDevVulns`) and
its guarding mutex, but its definition is not among the sources. -/

/-- Modelled from the spec: `pushCombosForHost`, the per-host unit of work of
the Fan-Out Deduplicator, whose definition is not under src/ (only its two
call sites in `Detections` are).  Spec sections 4.2-4.3: for each finding of
the host it computes the identity key (device identifier, vulnerability
identifier) and atomically tests-and-sets membership in the shared seen-set;
a key already present is silently dropped, a new key is inserted and its event
emitted, preserving finding order within the host.  Arguments: the host, then
the seen-set; returns the emitted events and the updated seen-set. -/
def pushDetsGo (hostID : Nat) (ip : String) :
    List QDetection → List (Nat × Nat) → List hostDetectionCombo × List (Nat × Nat)
  | [], seen => ([], seen)
  | d :: ds, seen =>
    let k := (hostID, d.qid)
    if k ∈ seen then pushDetsGo hostID ip ds seen
    else
      let r := pushDetsGo hostID ip ds (k :: seen)
      (⟨hostID, ip, d.qid, d.status, d.proof⟩ :: r.1, r.2)

/-- Modelled from the spec: the per-host unit of work applied to a whole host;
see `pushDetsGo`. -/
def pushCombosForHost (h : QHost) (seen : List (Nat × Nat)) :
    List hostDetectionCombo × List (Nat × Nat) :=
  pushDetsGo h.hostID h.ipAddress h.detections seen

/-- One sub-pipeline of `Detections` (the loop at src/connector/interface.go
lines 95-114, resp. 131-150): every host received from the pagination run is
given to a unit of work sharing one seen-set.  The units run concurrently in
the source but every seen-set operation is atomic under the shared mutex; the
fold below is one linearisation, and since the host list is universally
quantified in the theorems, every linearisation is covered. -/
def subPipelineGo : List QHost → List (Nat × Nat) →
    List hostDetectionCombo × List (Nat × Nat)
  | [], seen => ([], seen)
  | h :: hs, seen =>
    let r := pushCombosForHost h seen
    let r2 := subPipelineGo hs r.2
    (r.1 ++ r2.1, r2.2)

/-- The full event sequence of one `Detections` call (src/connector/interface.go
lines 67-160): the group-ID sub-pipeline runs first with a fresh seen-set,
then the tag sub-pipeline with another fresh, independent seen-set; both feed
the same output channel. -/
def detectionsStream (groupHosts tagHosts : List QHost) : List hostDetectionCombo :=
  (subPipelineGo groupHosts []).1 ++ (subPipelineGo tagHosts []).1

/-! ## Cancellation behaviour of `Detections`
(src/connector/interface.go lines 67-160) -/

/-- Externally visible actions of one `Detections` call: the two stage-entry
network fetches, the scheduling of a per-host unit of work, and the emission
of a detection event. -/
inductive DetCallEv where
  | fetchHostDetections (groups : List String)
  | fetchTagDetections (tags : List String)
  | scheduleWorker (h : QHost)
  | emit (c : hostDetectionCombo)
deriving DecidableEq

/-- The action trace of one `Detections` call, with the cancellation signal
modelled as already delivered (`ctxDone = true`) or never delivered
(`ctxDone = false`); `groupHosts` / `tagHosts` are the hosts the two
pagination runs deliver.  Faithful control flow of lines 67-160: each
non-empty side of the partition issues its stage fetch unconditionally — the
only `ctx.Done()` checks are inside the per-host dispatch loops, so an
observed cancellation stops dispatching and emitting in the loop but does not
stop the following stage from issuing its fetch.  Worker scheduling and
emission are linearised in dispatch order. -/
def detectionsTraceRun (ctxDone : Bool) (ids : List String)
    (groupHosts tagHosts : List QHost) : List DetCallEv :=
  let p := partitionIDs ids
  let stageTrace := fun (hosts : List QHost) =>
    if ctxDone then ([] : List DetCallEv)
    else (hosts.map DetCallEv.scheduleWorker) ++
      ((subPipelineGo hosts []).1.map DetCallEv.emit)
  (if p.1.isEmpty then [] else DetCallEv.fetchHostDetections p.1 :: stageTrace groupHosts)
    ++ (if p.2.isEmpty then [] else DetCallEv.fetchTagDetections p.2 :: stageTrace tagHosts)

/-! ## Channel-event traces: closing and joining
(src/unnamed/part_000 lines 116-181 and src/connector/interface.go
lines 67-160) -/

/-- Events on one output channel: a page fetch by the owning goroutine, the
forwarding of one host record, the join on spawned children/workers
(`WaitGroup.Wait`), and the closing of the channel (`defer close(out)`). -/
inductive Ev where
  | fetch
  | forward (h : QHost)
  | joinChildren
  | closeOut
deriving DecidableEq

/-- `Interleave xs ys zs`: `zs` is an order-preserving interleaving of `xs`
and `ys` (the possible linearisations of two concurrent event sequences). -/
inductive Interleave : List Ev → List Ev → List Ev → Prop
  | nil : Interleave [] [] []
  | left {x xs ys zs} : Interleave xs ys zs → Interleave (x :: xs) ys (x :: zs)
  | right {y xs ys zs} : Interleave xs ys zs → Interleave xs (y :: ys) (y :: zs)

/-- The possible event traces of one level of `getHostDetectionPostData` on
its own `out` channel.  On a fetch error (lines 175-177) nothing is forwarded
and the deferred close runs; on success the level forwards its own page's
hosts while the child goroutine (present exactly when the continuation
descriptor is) concurrently pumps the child run's hosts into the same
channel, then `recursiveWG.Wait()` (line 174) joins before the deferred
`close(out)` (line 121). -/
inductive EngineTrace : List PageResp → List Ev → Prop
  | fail {e rest} : EngineTrace (PageResp.fail e :: rest) [Ev.fetch, Ev.closeOut]
  | page_nowarn {hs rest} :
      EngineTrace (PageResp.page ⟨hs, none⟩ :: rest)
        (Ev.fetch :: (hs.map Ev.forward ++ [Ev.joinChildren, Ev.closeOut]))
  | page_warn {hs w rest u} :
      Interleave (hs.map Ev.forward)
        ((getHostDetectionPostData rest).hosts.map Ev.forward) u →
      EngineTrace (PageResp.page ⟨hs, some w⟩ :: rest)
        (Ev.fetch :: (u ++ [Ev.joinChildren, Ev.closeOut]))

/-- `InterleaveAll xss u`: `u` is an order-preserving interleaving of all the
event sequences in `xss` (the linearisations of the concurrent per-host
workers of one sub-pipeline stage). -/
inductive InterleaveAll : List (List Ev) → List Ev → Prop
  | nil : InterleaveAll [] []
  | cons {xs xss u v} : Interleave xs u v → InterleaveAll xss u →
      InterleaveAll (xs :: xss) v

/-- The possible event traces of one `Detections` call on its output channel:
the group-stage workers' emissions (arbitrarily interleaved), the group-stage
`wg.Wait()` (line 114), then the tag-stage workers' emissions, the tag-stage
`wg.Wait()` (line 150), then the deferred `close(out)` (line 72). -/
inductive DetectionsTrace : List (List Ev) → List (List Ev) → List Ev → Prop
  | mk {ws1 ws2 u1 u2} : InterleaveAll ws1 u1 → InterleaveAll ws2 u2 →
      DetectionsTrace ws1 ws2
        (u1 ++ [Ev.joinChildren] ++ u2 ++ [Ev.joinChildren, Ev.closeOut])

/-! ## Helper lemmas -/

/-- A string has positive length exactly when it is non-empty. -/
theorem string_length_pos (s : String) : 0 < s.length ↔ s ≠ ("") := by
  cases s with
  | mk data =>
    cases data with
    | nil => simp [String.length]
    | cons c cs => simp [String.length, String.ext_iff]

/-- The per-detection status rewrite of `pushDetectionsOnChannel` agrees with
the claim-side rule `specStatusRule`. -/
theorem statusRule_eq (m : List (String × String)) (ip : String) (d : QDetection) :
    (if (goMapGet m ip).length > 0 then
      { d with status := domain.DeadHost, proof := goMapGet m ip }
    else if d.status = "Fixed" then { d with status := domain.Fixed }
    else d) = specStatusRule m ip d := by
  unfold specStatusRule goMapGet
  cases hfind : m.find? (fun p => p.1 == ip) with
  | none => simp
  | some p =>
    by_cases hp : p.2 = ("")
    · simp [hp]
    · have hlen : 0 < p.2.length := (string_length_pos p.2).2 hp
      simp [hp, hlen]

/-- The `strings.Index` model finds an occurrence exactly when the pattern is
a contiguous sublist. -/
theorem goIndexAux_isSome_iff (sub : List Char) :
    ∀ s : List Char, (goIndexAux sub s).isSome ↔ sub <:+: s := by
  intro s
  induction s with
  | nil =>
    cases sub with
    | nil => simp [goIndexAux]
    | cons c cs => simp [goIndexAux, List.isEmpty, List.infix_nil]
  | cons c t ih =>
    simp only [goIndexAux]
    by_cases h : sub.isPrefixOf (c :: t)
    · simp only [h, if_true, Option.isSome_some, true_iff]
      exact (List.isPrefixOf_iff_prefix.mp h).isInfix
    · rw [if_neg h, Option.isSome_map', ih]
      constructor
      · exact fun hi => List.infix_cons hi
      · intro hi
        rcases List.infix_cons_iff.mp hi with hp | hi2
        · exact absurd (List.isPrefixOf_iff_prefix.mpr hp) h
        · exact hi2

/-- The seen-set only grows during one per-host unit of work. -/
theorem pushDetsGo_seen_mono (hid : Nat) (ip : String) :
    ∀ (ds : List QDetection) (seen : List (Nat × Nat)) (k : Nat × Nat),
      k ∈ seen → k ∈ (pushDetsGo hid ip ds seen).2 := by
  intro ds
  induction ds with
  | nil => intro seen k hk; exact hk
  | cons d ds ih =>
    intro seen k hk
    simp only [pushDetsGo]
    by_cases h : (hid, d.qid) ∈ seen
    · rw [if_pos h]; exact ih seen k hk
    · rw [if_neg h]
      exact ih ((hid, d.qid) :: seen) k (List.mem_cons_of_mem _ hk)

/-- Every event emitted by one per-host unit of work has a key that was not in
the seen-set it started from and is in the seen-set it ends with. -/
theorem pushDetsGo_emit_keys (hid : Nat) (ip : String) :
    ∀ (ds : List QDetection) (seen : List (Nat × Nat)) (c : hostDetectionCombo),
      c ∈ (pushDetsGo hid ip ds seen).1 →
      comboKey c ∉ seen ∧ comboKey c ∈ (pushDetsGo hid ip ds seen).2 := by
  intro ds
  induction ds with
  | nil => intro seen c hc; cases hc
  | cons d ds ih =>
    intro seen c hc
    simp only [pushDetsGo] at hc ⊢
    by_cases h : (hid, d.qid) ∈ seen
    · rw [if_pos h] at hc ⊢; exact ih seen c hc
    · rw [if_neg h] at hc ⊢
      rcases List.mem_cons.mp hc with rfl | hc2
      · refine ⟨h, ?_⟩
        exact pushDetsGo_seen_mono hid ip ds ((hid, d.qid) :: seen) _
          (List.mem_cons_self _ _)
      · have h2 := ih ((hid, d.qid) :: seen) c hc2
        exact ⟨fun hk => h2.1 (List.mem_cons_of_mem _ hk), h2.2⟩

/-- One per-host unit of work never emits two events with the same key. -/
theorem pushDetsGo_nodup (hid : Nat) (ip : String) :
    ∀ (ds : List QDetection) (seen : List (Nat × Nat)),
      (((pushDetsGo hid ip ds seen).1).map comboKey).Nodup := by
  intro ds
  induction ds with
  | nil => intro seen; simp [pushDetsGo]
  | cons d ds ih =>
    intro seen
    simp only [pushDetsGo]
    by_cases h : (hid, d.qid) ∈ seen
    · rw [if_pos h]; exact ih seen
    · rw [if_neg h]
      refine List.Nodup.cons ?_ (ih ((hid, d.qid) :: seen))
      intro hmem
      rcases List.mem_map.mp hmem with ⟨c, hc, hkey⟩
      have h2 := pushDetsGo_emit_keys hid ip ds ((hid, d.qid) :: seen) c hc
      apply h2.1
      rw [hkey]
      exact List.mem_cons_self _ _

/-- The seen-set only grows across the hosts of one sub-pipeline. -/
theorem subPipelineGo_seen_mono :
    ∀ (hs : List QHost) (seen : List (Nat × Nat)) (k : Nat × Nat),
      k ∈ seen → k ∈ (subPipelineGo hs seen).2 := by
  intro hs
  induction hs with
  | nil => intro seen k hk; exact hk
  | cons h hs ih =>
    intro seen k hk
    exact ih _ k (pushDetsGo_seen_mono h.hostID h.ipAddress h.detections seen k hk)

/-- Every event emitted by one sub-pipeline has a key that was not in the
initial seen-set and is in the final seen-set. -/
theorem subPipelineGo_emit_keys :
    ∀ (hs : List QHost) (seen : List (Nat × Nat)) (c : hostDetectionCombo),
      c ∈ (subPipelineGo hs seen).1 →
      comboKey c ∉ seen ∧ comboKey c ∈ (subPipelineGo hs seen).2 := by
  intro hs
  induction hs with
  | nil => intro seen c hc; cases hc
  | cons h hs ih =>
    intro seen c hc
    simp only [subPipelineGo] at hc ⊢
    rcases List.mem_append.mp hc with hc1 | hc2
    · have h1 := pushDetsGo_emit_keys h.hostID h.ipAddress h.detections seen c hc1
      exact ⟨h1.1, subPipelineGo_seen_mono hs _ _ h1.2⟩
    · have h2 := ih _ c hc2
      refine ⟨fun hk => h2.1 ?_, h2.2⟩
      exact pushDetsGo_seen_mono h.hostID h.ipAddress h.detections seen _ hk

/-- One sub-pipeline (one shared seen-set) never emits two events with the
same identity key, whatever its initial seen-set. -/
theorem subPipelineGo_nodup :
    ∀ (hs : List QHost) (seen : List (Nat × Nat)),
      (((subPipelineGo hs seen).1).map comboKey).Nodup := by
  intro hs
  induction hs with
  | nil => intro seen; simp [subPipelineGo]
  | cons h hs ih =>
    intro seen
    simp only [subPipelineGo, List.map_append]
    rw [List.nodup_append]
    refine ⟨pushDetsGo_nodup h.hostID h.ipAddress h.detections seen, ih _, ?_⟩
    intro k hk1 hk2
    rcases List.mem_map.mp hk1 with ⟨c1, hc1, hkey1⟩
    rcases List.mem_map.mp hk2 with ⟨c2, hc2, hkey2⟩
    have h1 := pushDetsGo_emit_keys h.hostID h.ipAddress h.detections seen c1 hc1
    have h2 := subPipelineGo_emit_keys hs _ c2 hc2
    apply h2.1
    rw [hkey2, ← hkey1]
    exact h1.2

/-- Every element of an interleaving comes from one of the two sequences. -/
theorem interleave_mem {xs ys zs : List Ev} (h : Interleave xs ys zs) :
    ∀ z, z ∈ zs → z ∈ xs ∨ z ∈ ys := by
  induction h with
  | nil => intro z hz; cases hz
  | left h ih =>
    intro z hz
    rcases List.mem_cons.mp hz with rfl | hz2
    · exact Or.inl (List.mem_cons_self _ _)
    · rcases ih z hz2 with h1 | h2
      · exact Or.inl (List.mem_cons_of_mem _ h1)
      · exact Or.inr h2
  | right h ih =>
    intro z hz
    rcases List.mem_cons.mp hz with rfl | hz2
    · exact Or.inr (List.mem_cons_self _ _)
    · rcases ih z hz2 with h1 | h2
      · exact Or.inl h1
      · exact Or.inr (List.mem_cons_of_mem _ h2)

/-- Every element of an interleaving of a family comes from one member. -/
theorem interleaveAll_mem {xss : List (List Ev)} {u : List Ev}
    (h : InterleaveAll xss u) : ∀ z, z ∈ u → ∃ l, l ∈ xss ∧ z ∈ l := by
  induction h with
  | nil => intro z hz; cases hz
  | cons hint hall ih =>
    intro z hz
    rcases interleave_mem hint z hz with h1 | h2
    · exact ⟨_, List.mem_cons_self _ _, h1⟩
    · rcases ih z h2 with ⟨l, hl, hzl⟩
      exact ⟨l, List.mem_cons_of_mem _ hl, hzl⟩

/-- A channel-close event is never a host-forwarding event. -/
theorem closeOut_not_mem_forward (hs : List QHost) :
    Ev.closeOut ∉ hs.map Ev.forward := by
  intro h
  rcases List.mem_map.mp h with ⟨x, _, hx⟩
  cases hx

/-- Every trace of one pagination-engine level ends with the single close of
its output channel; on a successfully fetched page the join on the child
goroutine is the last event before the close (so every forwarding, of the
page's own records and of all descendant pages' records, precedes the join). -/
theorem engineTrace_close (chain : List PageResp) (t : List Ev)
    (h : EngineTrace chain t) :
    ∃ u, t = u ++ [Ev.closeOut] ∧ Ev.closeOut ∉ u ∧
      ∀ (o : QHostListDetectionOutput) (rest : List PageResp),
        chain = PageResp.page o :: rest → ∃ v, u = v ++ [Ev.joinChildren] := by
  cases h with
  | fail =>
    refine ⟨[Ev.fetch], rfl, by simp, ?_⟩
    intro o rest hchain
    cases hchain
  | page_nowarn =>
    rename_i hs rest
    refine ⟨Ev.fetch :: (hs.map Ev.forward ++ [Ev.joinChildren]), by simp, ?_, ?_⟩
    · intro hmem
      rcases List.mem_cons.mp hmem with hfe | hmem2
      · cases hfe
      · rcases List.mem_append.mp hmem2 with hfwd | hj
        · exact closeOut_not_mem_forward hs hfwd
        · cases List.mem_singleton.mp hj
    · intro o rest2 hchain
      exact ⟨Ev.fetch :: hs.map Ev.forward, by simp⟩
  | page_warn hint =>
    rename_i hs w rest u'
    refine ⟨Ev.fetch :: (u' ++ [Ev.joinChildren]), by simp, ?_, ?_⟩
    · intro hmem
      rcases List.mem_cons.mp hmem with hfe | hmem2
      · cases hfe
      · rcases List.mem_append.mp hmem2 with hu | hj
        · rcases interleave_mem hint _ hu with h1 | h2
          · exact closeOut_not_mem_forward hs h1
          · exact closeOut_not_mem_forward _ h2
        · cases List.mem_singleton.mp hj
    · intro o rest2 hchain
      exact ⟨Ev.fetch :: u', by simp⟩

/-- Every trace of one `Detections` call ends with the single close of its
output channel, and the join on the tag-stage workers is the last event
before that close. -/
theorem detectionsTrace_close (ws1 ws2 : List (List Ev)) (t : List Ev)
    (h1 : ∀ l, l ∈ ws1 → Ev.closeOut ∉ l) (h2 : ∀ l, l ∈ ws2 → Ev.closeOut ∉ l)
    (h : DetectionsTrace ws1 ws2 t) :
    ∃ u, t = u ++ [Ev.closeOut] ∧ Ev.closeOut ∉ u ∧
      ∃ v, u = v ++ [Ev.joinChildren] := by
  cases h with
  | mk ha hb =>
    rename_i u1 u2
    refine ⟨u1 ++ [Ev.joinChildren] ++ u2 ++ [Ev.joinChildren], by simp, ?_, ?_⟩
    · intro hmem
      rcases List.mem_append.mp hmem with hmem2 | hj
      · rcases List.mem_append.mp hmem2 with hmem3 | hu2
        · rcases List.mem_append.mp hmem3 with hu1 | hj1
          · rcases interleaveAll_mem ha _ hu1 with ⟨l, hl, hml⟩
            exact h1 l hl hml
          · cases List.mem_singleton.mp hj1
        · rcases interleaveAll_mem hb _ hu2 with ⟨l, hl, hml⟩
          exact h2 l hl hml
      · cases List.mem_singleton.mp hj
    · exact ⟨u1 ++ [Ev.joinChildren] ++ u2, rfl⟩

/-! ## Claim theorems -/

/-- Claim C1, counterexample: the claim asserts that no two Detection Events
with the same identity key are ever emitted on the same logical stream,
including events emitted by the scan-results path.  On that path
(`pushDetectionsOnChannel`) there is no seen-set at all: a host carrying two
detections with the same QID (as Qualys reports for the same vulnerability on
two ports) yields two events with the identical key (1, 10) on one stream. -/
theorem C1_scan_path_duplicate_keys :
    ¬ (((pushDetectionsOnChannel
        ⟨[⟨1, ("1.1.1.1"), [⟨10, ("Active"), ("port 80")⟩,
          ⟨10, ("Active"), ("port 443")⟩]⟩], none⟩ [])).map comboKey).Nodup := by
  decide

/-- Claim C1 as amended: within one sub-pipeline of a `Detections` call —
one shared seen-set instance — no two emitted events share an identity key,
for every host sequence (hence for every linearisation of the concurrent
workers); but the group-ID and tag sub-pipelines of the same call use
independent seen-sets, so the same key can be emitted once by each (shown at
a concrete host), and the scan-results path deduplicates nothing. -/
theorem C1_dedup_within_subpipeline :
    (∀ hosts : List QHost, (((subPipelineGo hosts []).1).map comboKey).Nodup)
    ∧ (detectionsStream [⟨1, ("1.1.1.1"), [⟨10, ("Active"), ("p")⟩]⟩]
        [⟨1, ("1.1.1.1"), [⟨10, ("Active"), ("p")⟩]⟩]).map comboKey
        = [(1, 10), (1, 10)] := by
  exact ⟨fun hosts => subPipelineGo_nodup hosts [], by decide⟩

/-- Claim C2 (code bug): when the first page fetch of a pagination run fails,
the claim (and the caller code, which checks the returned error) expects the
error to be returned synchronously by `GetHostDetections` /
`GetTagDetections`; but the POST and the assignment to the named return `err`
happen inside the goroutine launched by `getHostDetectionPostData`, after the
function has returned, so the caller observes a nil error while the failure
is only logged inside the goroutine.  The no-partial-results half of the
claim does hold: the stream delivers no hosts. -/
theorem C2_first_fetch_error_not_returned :
    (GetHostDetections [("1")] 0 [PageResp.fail ("post failure")]).errAtReturn = none
    ∧ (GetHostDetections [("1")] 0 [PageResp.fail ("post failure")]).out = some []
    ∧ (GetTagDetections [("t")] 0 [PageResp.fail ("post failure")]).errAtReturn = none
    ∧ (GetTagDetections [("t")] 0 [PageResp.fail ("post failure")]).out = some []
    ∧ (getHostDetectionPostData [PageResp.fail ("post failure")]).errInGoroutine
        = some ("post failure") := by
  exact ⟨rfl, rfl, rfl, rfl, rfl⟩

/-- Claim C3, counterexample: the claim asserts raw status `Re-Opened` maps to
Vulnerable, but `Status` lower-cases the raw status and matches the vendor
token `reopened` (no hyphen), so the hyphenated form falls through the switch
and is returned unchanged. -/
theorem C3_reopened_hyphen_passthrough :
    Status ⟨("Re-Opened"), ("VULNERABILITY")⟩ = ("Re-Opened")
    ∧ ("Re-Opened" : String) ≠ domain.Vulnerable
    ∧ ("Re-Opened" : String) ≠ domain.Informational := by
  refine ⟨by decide, by decide, by decide⟩

/-- Claim C3 as amended: `Status` returns Informational whenever the record's
kind is `INFORMATION_GATHERED` regardless of raw status; otherwise the
lower-cased raw status is matched against the vendor vocabulary, so Vulnerable
is returned for every raw status whose lower-casing is `new`, `active`,
`reopened` (the vendor token, without hyphen) or `protected`, Fixed for every
raw status lower-casing to `fixed`, and every other raw status — including the
hyphenated `Re-Opened` — is returned unchanged. -/
theorem C3_status_vocabulary_amended :
    ∀ (t s : String), t ≠ ("INFORMATION_GATHERED") →
      Status ⟨s, ("INFORMATION_GATHERED")⟩ = domain.Informational
      ∧ ((goToLower s = ("new") ∨ goToLower s = ("active")
          ∨ goToLower s = ("reopened") ∨ goToLower s = ("protected")) →
          Status ⟨s, t⟩ = domain.Vulnerable)
      ∧ (goToLower s = ("fixed") → Status ⟨s, t⟩ = domain.Fixed)
      ∧ (goToLower s ∉ ([("new"), ("active"), ("reopened"), ("fixed"),
          ("protected")] : List String) → Status ⟨s, t⟩ = s)
      ∧ Status ⟨("Re-Opened"), t⟩ = ("Re-Opened") := by
  intro t s ht
  refine ⟨by simp [Status], ?_, ?_, ?_, ?_⟩
  · intro h
    simp only [Status, if_neg ht]
    rcases h with h | h | h | h
    all_goals rw [h]
    all_goals rfl
  · intro h
    simp only [Status, if_neg ht]
    rw [h]
    rfl
  · intro h
    simp only [Status, if_neg ht]
    split
    · rename_i heq; rw [heq] at h; exact absurd (by decide) h
    · rename_i heq; rw [heq] at h; exact absurd (by decide) h
    · rename_i heq; rw [heq] at h; exact absurd (by decide) h
    · rename_i heq; rw [heq] at h; exact absurd (by decide) h
    · rename_i heq; rw [heq] at h; exact absurd (by decide) h
    · rfl
  · simp only [Status, if_neg ht]
    rfl

/-- Witness for C3: the amended vocabulary exercised at concrete inputs — a
mixed-case `ACTIVE` maps to Vulnerable, `FiXeD` to Fixed, the out-of-vocabulary
`Re--Opened` and the hyphenated `Re-Opened` pass through unchanged, and an
`INFORMATION_GATHERED` record is Informational. -/
theorem C3_status_vocabulary_amended_witness :
    Status ⟨("Active"), ("INFORMATION_GATHERED")⟩ = domain.Informational
    ∧ Status ⟨("ACTIVE"), ("VULNERABILITY")⟩ = domain.Vulnerable
    ∧ Status ⟨("FiXeD"), ("VULNERABILITY")⟩ = domain.Fixed
    ∧ Status ⟨("Re--Opened"), ("VULNERABILITY")⟩ = ("Re--Opened")
    ∧ Status ⟨("Re-Opened"), ("VULNERABILITY")⟩ = ("Re-Opened") :=
  ⟨(C3_status_vocabulary_amended ("VULNERABILITY") ("Active") (by decide)).1,
    (C3_status_vocabulary_amended ("VULNERABILITY") ("ACTIVE")
      (by decide)).2.1 (by decide),
    (C3_status_vocabulary_amended ("VULNERABILITY") ("FiXeD")
      (by decide)).2.2.1 (by decide),
    (C3_status_vocabulary_amended ("VULNERABILITY") ("Re--Opened")
      (by decide)).2.2.2.1 (by decide),
    (C3_status_vocabulary_amended ("VULNERABILITY") ("Active")
      (by decide)).2.2.2.2⟩

/-- Claim C4, counterexample: the claim asserts that mere key-presence of the
host's IP in the dead-host proof map forces status `DeadHost`; but the code
tests `len(deadHostProof) > 0` on the map's read, so a key present with an
empty proof text does not override — the event keeps its raw status. -/
theorem C4_empty_proof_key_present :
    goMapHasKey [(("1.2.3.4"), (""))] ("1.2.3.4") = true
    ∧ pushDetectionsOnChannel
        ⟨[⟨1, ("1.2.3.4"), [⟨10, ("Active"), ("p")⟩]⟩], none⟩
        [(("1.2.3.4"), (""))]
        = [⟨1, ("1.2.3.4"), 10, ("Active"), ("p")⟩]
    ∧ ("Active" : String) ≠ domain.DeadHost := by
  refine ⟨rfl, by decide, by decide⟩

/-- Claim C4 as amended: for every host and detection processed by
`pushDetectionsOnChannel`, if the dead-host proof map maps the host's IP to a
NON-EMPTY proof text the emitted event's status is `DeadHost` and its proof is
that mapped text verbatim, overriding any other status; otherwise a raw
status equal to the vendor token `Fixed` is normalised to canonical `Fixed`,
and any other detection is emitted unchanged (stated as the equality of the
full output with the claim-side rule `specStatusRule`). -/
theorem C4_dead_host_override_amended :
    ∀ (output : QHostListDetectionOutput) (m : List (String × String)),
      pushDetectionsOnChannel output m
        = output.hosts.flatMap
            (fun h => h.detections.map
              (fun d => mkCombo h (specStatusRule m h.ipAddress d))) := by
  intro output m
  simp only [pushDetectionsOnChannel]
  congr 1
  funext h
  congr 1
  funext d
  rw [← statusRule_eq m h.ipAddress d]

/-- Claim C5 (confirmed): at every level of `getHostDetectionPostData`, a
present continuation descriptor causes exactly one follow-up run (its single
extra fetch plus whatever that run fetches, its hosts merged into the same
stream) even when the page has zero host records, and an absent descriptor
terminates the recursion with exactly the one fetch already performed. -/
theorem C5_continuation_follow_up :
    ∀ (output : QHostListDetectionOutput) (rest : List PageResp),
      (output.warning.isSome = true →
        (getHostDetectionPostData (PageResp.page output :: rest)).fetches
            = 1 + (getHostDetectionPostData rest).fetches
        ∧ (getHostDetectionPostData (PageResp.page output :: rest)).hosts
            = output.hosts ++ (getHostDetectionPostData rest).hosts)
      ∧ (output.warning = none →
        (getHostDetectionPostData (PageResp.page output :: rest)).fetches = 1
        ∧ (getHostDetectionPostData (PageResp.page output :: rest)).hosts
            = output.hosts) := by
  intro output rest
  cases output with
  | mk hs w =>
    cases w with
    | none =>
      constructor
      · intro habs; cases habs
      · intro _; exact ⟨rfl, rfl⟩
    | some wv =>
      constructor
      · intro _; exact ⟨rfl, rfl⟩
      · intro habs; cases habs

/-- Witness for C5: a zero-record page with a continuation descriptor still
triggers the follow-up (two fetches, the child page's host delivered), and a
page without one performs a single fetch. -/
theorem C5_continuation_follow_up_witness :
    ((getHostDetectionPostData (PageResp.page ⟨[], some ⟨("next")⟩⟩
          :: [PageResp.page ⟨[⟨7, ("ip7"), []⟩], none⟩])).fetches
        = 1 + (getHostDetectionPostData
            [PageResp.page ⟨[⟨7, ("ip7"), []⟩], none⟩]).fetches
      ∧ (getHostDetectionPostData (PageResp.page ⟨[], some ⟨("next")⟩⟩
          :: [PageResp.page ⟨[⟨7, ("ip7"), []⟩], none⟩])).hosts
        = [] ++ (getHostDetectionPostData
            [PageResp.page ⟨[⟨7, ("ip7"), []⟩], none⟩]).hosts)
    ∧ ((getHostDetectionPostData (PageResp.page ⟨[⟨7, ("ip7"), []⟩], none⟩
          :: [])).fetches = 1
      ∧ (getHostDetectionPostData (PageResp.page ⟨[⟨7, ("ip7"), []⟩], none⟩
          :: [])).hosts = [⟨7, ("ip7"), []⟩]) :=
  ⟨(C5_continuation_follow_up ⟨[], some ⟨("next")⟩⟩
      [PageResp.page ⟨[⟨7, ("ip7"), []⟩], none⟩]).1 rfl,
    (C5_continuation_follow_up ⟨[⟨7, ("ip7"), []⟩], none⟩ []).2 rfl⟩

/-- Claim C6 (confirmed): for every pagination run and every `Detections`
call, the output channel is closed exactly once — the close is the unique
final event of every possible trace — and only after all forwarding has
happened: on every successfully fetched page the join on the child goroutine
is the last event before the close, and in every `Detections` trace the join
on the stage workers is the last event before the close, so every forwarded
record and every unit of work precedes the join which precedes the close. -/
theorem C6_close_once_after_join :
    (∀ (chain : List PageResp) (t : List Ev), EngineTrace chain t →
      ∃ u, t = u ++ [Ev.closeOut] ∧ Ev.closeOut ∉ u ∧
        ∀ (o : QHostListDetectionOutput) (rest : List PageResp),
          chain = PageResp.page o :: rest → ∃ v, u = v ++ [Ev.joinChildren])
    ∧ (∀ (ws1 ws2 : List (List Ev)) (t : List Ev),
        (∀ l, l ∈ ws1 → Ev.closeOut ∉ l) → (∀ l, l ∈ ws2 → Ev.closeOut ∉ l) →
        DetectionsTrace ws1 ws2 t →
        ∃ u, t = u ++ [Ev.closeOut] ∧ Ev.closeOut ∉ u ∧
          ∃ v, u = v ++ [Ev.joinChildren]) :=
  ⟨engineTrace_close, detectionsTrace_close⟩

/-- Witness for C6: the single-page engine trace and the empty-stages
`Detections` trace both end in their unique close, preceded by the join. -/
theorem C6_close_once_after_join_witness :
    (∃ u, ([Ev.fetch, Ev.joinChildren, Ev.closeOut] : List Ev)
        = u ++ [Ev.closeOut] ∧ Ev.closeOut ∉ u ∧
      ∀ (o : QHostListDetectionOutput) (rest : List PageResp),
        ([PageResp.page ⟨[], none⟩] : List PageResp) = PageResp.page o :: rest →
        ∃ v, u = v ++ [Ev.joinChildren])
    ∧ (∃ u, ([Ev.joinChildren, Ev.joinChildren, Ev.closeOut] : List Ev)
        = u ++ [Ev.closeOut] ∧ Ev.closeOut ∉ u ∧
      ∃ v, u = v ++ [Ev.joinChildren]) := by
  constructor
  · have h : EngineTrace [PageResp.page ⟨[], none⟩]
        [Ev.fetch, Ev.joinChildren, Ev.closeOut] := EngineTrace.page_nowarn
    exact C6_close_once_after_join.1 _ _ h
  · have h : DetectionsTrace [] [] [Ev.joinChildren, Ev.joinChildren, Ev.closeOut] :=
      DetectionsTrace.mk InterleaveAll.nil InterleaveAll.nil
    exact C6_close_once_after_join.2 [] [] _ (by simp) (by simp) h

/-- Claim C7, counterexample: the claim asserts that cancellation observed
during the group-ID stage prevents the subsequent tag-stage fetch.  With the
cancellation signal already delivered (so the group-stage dispatch loop
observes it at its first select), `Detections` still issues both stage-entry
fetches: nothing guards the entry of a stage on the signal. -/
theorem C7_tag_fetch_after_cancellation :
    detectionsTraceRun true [("g"), ("tag-t")] [] []
      = [DetCallEv.fetchHostDetections [("g")],
        DetCallEv.fetchTagDetections [("t")]] := by
  decide

/-- Claim C7 as amended: once the cancellation signal is observed, the
per-host dispatch loops of `Detections` schedule no unit of work and nothing
further is emitted — every event of a cancelled run is one of the two
stage-entry fetches — but those stage-entry fetches themselves are not
guarded by the signal (and the pagination engine takes no cancellation signal
at all), so cancellation does not prevent a following stage's fetch. -/
theorem C7_cancellation_amended :
    ∀ (ids : List String) (groupHosts tagHosts : List QHost) (e : DetCallEv),
      e ∈ detectionsTraceRun true ids groupHosts tagHosts →
      (∃ gs, e = DetCallEv.fetchHostDetections gs)
      ∨ (∃ ts, e = DetCallEv.fetchTagDetections ts) := by
  intro ids gh th e he
  simp only [detectionsTraceRun, if_true] at he
  rcases List.mem_append.mp he with h | h
  · by_cases hp : (partitionIDs ids).1.isEmpty
    · rw [if_pos hp] at h; cases h
    · rw [if_neg hp] at h
      rcases List.mem_cons.mp h with rfl | h2
      · exact Or.inl ⟨_, rfl⟩
      · cases h2
  · by_cases hp : (partitionIDs ids).2.isEmpty
    · rw [if_pos hp] at h; cases h
    · rw [if_neg hp] at h
      rcases List.mem_cons.mp h with rfl | h2
      · exact Or.inr ⟨_, rfl⟩
      · cases h2

/-- Witness for C7: in the cancelled run over selector list `g`, the only
event is the group-stage fetch. -/
theorem C7_cancellation_amended_witness :
    (∃ gs, DetCallEv.fetchHostDetections [("g")]
        = DetCallEv.fetchHostDetections gs)
    ∨ (∃ ts, DetCallEv.fetchHostDetections [("g")]
        = DetCallEv.fetchTagDetections ts) :=
  C7_cancellation_amended [("g")] [] [] (DetCallEv.fetchHostDetections [("g")])
    (by decide)

/-- Claim C8, counterexample: the claim asserts that a nil/empty IP list to
`GetHostSpecificDetections` yields a non-nil InvalidRequest error; in fact
the function merely skips its body — no network call, but the named returns
stay at their zero values, so the caller receives a nil error and nil
output. -/
theorem C8_host_specific_empty_no_error :
    GetHostSpecificDetections [] [("1")] 0 (Except.ok ⟨[], none⟩)
      = ⟨none, none, 0⟩ := by
  rfl

/-- Claim C8 as amended: a nil/empty group list to `GetHostDetections` and a
nil/empty tag list to `GetTagDetections` are rejected before any network call
with a non-nil error; a nil/empty IP list to `GetHostSpecificDetections`
likewise causes no network call, but the call returns a nil error and nil
output instead of an InvalidRequest error. -/
theorem C8_empty_selector_amended :
    ∀ (k : Int) (chain : List PageResp) (groups : List String)
      (resp : Except String QHostListDetectionOutput),
      (GetHostDetections [] k chain).errAtReturn.isSome = true
      ∧ (GetHostDetections [] k chain).out = none
      ∧ (GetTagDetections [] k chain).errAtReturn.isSome = true
      ∧ (GetTagDetections [] k chain).out = none
      ∧ GetHostSpecificDetections [] groups k resp = ⟨none, none, 0⟩ := by
  intro k chain groups resp
  exact ⟨rfl, rfl, rfl, rfl, rfl⟩

/-- Claim C9, counterexample: the claim asserts that exactly the identifiers
PREFIXED with `tag-` are classified tag-style; the code instead uses
`strings.Index(id, "tag-") >= 0`, a containment test, so `xtag-y` — which
does not start with `tag-` — is classified tag-style (with tag `y`) instead
of group-style. -/
theorem C9_contains_not_prefix :
    partitionIDs [("xtag-y")] = (([] : List String), [("y")])
    ∧ tagMarker.data.isPrefixOf ("xtag-y").data = false := by
  refine ⟨by decide, by decide⟩

/-- Claim C9 as amended: `Detections` classifies as tag-style exactly the
identifiers CONTAINING the literal `tag-` (prefixed identifiers included),
taking the portion after its first occurrence as the tag, and classifies
every identifier not containing `tag-` as group-style, preserving order in
both lists; the claim's example still partitions as stated. -/
theorem C9_partition_amended :
    ∀ ids : List String,
      (partitionIDs ids).1
          = ids.filter (fun id => !(decide (tagMarker.data <:+: id.data)))
      ∧ (partitionIDs ids).2 = ids.filterMap tagStyleSuffix
      ∧ partitionIDs [("ag1"), ("tag-prod"), ("ag2")]
          = ([("ag1"), ("ag2")], [("prod")]) := by
  intro ids
  refine ⟨?_, ?_, by decide⟩
  · induction ids with
    | nil => rfl
    | cons id rest ih =>
      simp only [partitionIDs, List.filter_cons]
      cases hidx : goIndexAux tagMarker.data id.data with
      | some i =>
        have hinf : tagMarker.data <:+: id.data := by
          rw [← goIndexAux_isSome_iff, hidx]; rfl
        simp [hinf, ih]
      | none =>
        have hinf : ¬ (tagMarker.data <:+: id.data) := by
          rw [← goIndexAux_isSome_iff, hidx]; simp
        simp [hinf, ih]
  · induction ids with
    | nil => rfl
    | cons id rest ih =>
      simp only [partitionIDs, List.filterMap_cons]
      cases hidx : goIndexAux tagMarker.data id.data with
      | some i => simp [tagStyleSuffix, hidx, ih]
      | none => simp [tagStyleSuffix, hidx, ih]

/-- Claim C10 (confirmed): for every non-empty tag list, the request field
`tag_set_by` is decided solely by whether the FIRST tag parses as an integer
(`strconv.Atoi` succeeds) — `id` if it does, `name` otherwise — regardless of
the remaining tags. -/
theorem C10_tag_set_by_first_element :
    ∀ (t0 : String) (rest : List String) (k : Int) (chain : List PageResp),
      ((GetTagDetections (t0 :: rest) k chain).fields).map
          (fun f => f.tag_set_by)
        = some (if (goAtoi t0).isSome then ("id") else ("name")) := by
  intro t0 rest k chain
  rfl
